import Mathlib

/-!
Verification of the ArthaFlow CSV bank-statement import pipeline.

The definitions below are a shallow embedding of the Upload page's pure
pipeline functions (tokenizer, header matcher, row mapper, date parser,
validator, commit conversion) together with the import-session state
machine that orchestrates them.  JavaScript runtime behaviour that the
code relies on (string `trim`, array `indexOf`, `parseInt`, `parseFloat`,
object property assignment, `Date` construction) is modelled explicitly;
each model carries a comment stating its scope.  IEEE-754 doubles are
abstracted to exact rationals, which is faithful for every sign and
comparison fact stated here.
-/

/-- Character-list test: does the first list occur as a prefix of the second? -/
def startsWithChars : List Char → List Char → Bool
  | [], _ => true
  | _ :: _, [] => false
  | a :: as, b :: bs => a = b && startsWithChars as bs

/-- Character-list test: does the first list occur contiguously inside the
second?  Models the JavaScript `String.prototype.includes`. -/
def containsChars (needle : List Char) : List Char → Bool
  | [] => needle.isEmpty
  | b :: bs => startsWithChars needle (b :: bs) || containsChars needle bs

/-- Substring test on strings: `strIncludes a b` models `a.includes(b)`. -/
def strIncludes (a b : String) : Bool := containsChars b.toList a.toList

/-- Split a character list at every separator, keeping empty fragments
(the accumulator holds the current fragment reversed). -/
def splitCharsAux (p : Char → Bool) : List Char → List Char → List (List Char)
  | [], acc => [acc.reverse]
  | c :: cs, acc =>
    if p c then acc.reverse :: splitCharsAux p cs [] else splitCharsAux p cs (c :: acc)

/-- String split on a character class: models the JavaScript
`String.prototype.split` with a one-character-class regex (every
occurrence separates; empty fragments are preserved; the empty string
yields one empty fragment). -/
def strSplit (s : String) (p : Char → Bool) : List String :=
  (splitCharsAux p s.toList []).map String.mk

/-- Drop leading and trailing whitespace: models the JavaScript
`String.prototype.trim` (ASCII whitespace). -/
def strTrim (s : String) : String :=
  String.mk (((s.toList.dropWhile Char.isWhitespace).reverse.dropWhile Char.isWhitespace).reverse)

/-- Numeric value of a non-empty all-digit string; `none` otherwise.
Models `parseInt` on the digit-only fragments produced by the date
parser's split (where `parseInt("")` is `NaN`). -/
def digitsVal (s : String) : Option Nat :=
  if s.isEmpty then none
  else if s.toList.all Char.isDigit then
    some (s.toList.foldl (fun n c => n * 10 + (c.toNat - 48)) 0)
  else none

/-- Header normalization from `findBestMatchingHeader`: lower-case, then
remove underscores and whitespace (`h.toLowerCase().replace(/[_\s]/g, '')`,
ASCII case folding). -/
def normHeader (s : String) : String :=
  String.mk ((s.toList.map Char.toLower).filter fun c => !(c = '_' || c.isWhitespace))

/-- The exact-tier test of `findBestMatchingHeader`: normalized header
equals the normalized target. -/
def exactHeaderMatch (normalizedTarget h : String) : Bool :=
  normHeader h = normalizedTarget

/-- The partial-tier test of `findBestMatchingHeader`: normalized header
contains the normalized target, or the normalized target contains the
normalized header. -/
def partialHeaderMatch (normalizedTarget h : String) : Bool :=
  strIncludes (normHeader h) normalizedTarget ||
  strIncludes normalizedTarget (normHeader h)

/-- `findBestMatchingHeader(headers, targetHeader)`: first header whose
normalized form equals the normalized target; failing that the first
header whose normalized form contains the normalized target or vice
versa; failing that the empty string. -/
def findBestMatchingHeader (headers : List String) (targetHeader : String) : String :=
  let normalizedTarget := normHeader targetHeader
  match headers.find? (exactHeaderMatch normalizedTarget) with
  | some exactMatch => exactMatch
  | none =>
    match headers.find? (partialHeaderMatch normalizedTarget) with
    | some partialMatch => partialMatch
    | none => ""

/-- One step of the character scan in `parseCsvLine`: the state is
(fields emitted so far, current field, `inQuotes` flag). -/
def csvLineStep (st : List String × String × Bool) (c : Char) : List String × String × Bool :=
  let (result, current, inQuotes) := st
  if c = '"' then (result, current, !inQuotes)
  else if c = ',' && !inQuotes then (result ++ [strTrim current], "", inQuotes)
  else (result, current.push c, inQuotes)

/-- `val.replace(/^"|"$/g, '')`: drop one leading and one trailing quote. -/
def stripEdgeQuotes (val : String) : String :=
  let l := match val.toList with
    | '"' :: rest => rest
    | l => l
  String.mk (match l.reverse with
    | '"' :: rest => rest.reverse
    | _ => l)

/-- `parseCsvLine(line)`: scan the characters keeping an `inQuotes` flag
toggled by `"` (quote characters are dropped), split on commas outside
quotes, trim each field, then strip one leading/trailing quote (a no-op
here since quotes were dropped) and trim again. -/
def parseCsvLine (line : String) : List String :=
  let (result, current, _) := line.toList.foldl csvLineStep ([], "", false)
  let fields := result ++ [strTrim current]
  fields.map fun val => strTrim (stripEdgeQuotes val)

/-- The non-blank lines of the input: `text.split('\n')` with lines whose
trim is empty removed. -/
def nonBlankLines (text : String) : List String :=
  (strSplit text (· = '\n')).filter fun line => strTrim line ≠ ""

/-- `parseRawCSV(text)`: needs at least a header line and one data line,
parses the first non-blank line as headers, and keeps exactly the
subsequent lines whose parsed field count equals the header count. -/
def parseRawCSV (text : String) : Except String (List String × List (List String)) :=
  let lines := nonBlankLines text
  if lines.length < 2 then
    .error "CSV file must contain at least a header row and one data row"
  else
    let headers := parseCsvLine (lines.headD "")
    let data := ((lines.drop 1).map parseCsvLine).filter fun rowData =>
      rowData.length = headers.length
    .ok (headers, data)

/-- A bank template from the `bankTemplates` catalog: expected header
labels (category/type optional, `none` when the template omits them) and
the template's date format string. -/
structure BankTemplate where
  id : String
  name : String
  hdate : String
  hdescription : String
  hamount : String
  hcategory : Option String
  htype : Option String
  dateFormat : String
deriving Repr, DecidableEq

/-- The `generic` catalog entry. -/
def genericTemplate : BankTemplate :=
  ⟨"generic", "Generic Format", "date", "description", "amount",
    some "category", some "type", "YYYY-MM-DD"⟩

/-- The `chase` catalog entry. -/
def chaseTemplate : BankTemplate :=
  ⟨"chase", "Chase Bank", "transaction_date", "description", "amount",
    none, some "transaction_type", "MM/DD/YYYY"⟩

/-- The `bankofamerica` catalog entry. -/
def bankOfAmericaTemplate : BankTemplate :=
  ⟨"bankofamerica", "Bank of America", "date", "description", "amount",
    none, none, "MM/DD/YYYY"⟩

/-- The `wells_fargo` catalog entry. -/
def wellsFargoTemplate : BankTemplate :=
  ⟨"wells_fargo", "Wells Fargo", "date", "description", "amount",
    none, none, "MM/DD/YYYY"⟩

/-- The `hsbc` catalog entry. -/
def hsbcTemplate : BankTemplate :=
  ⟨"hsbc", "HSBC", "date", "description", "amount",
    none, none, "DD/MM/YYYY"⟩

/-- The static template catalog `bankTemplates`. -/
def bankTemplates : List BankTemplate :=
  [genericTemplate, chaseTemplate, bankOfAmericaTemplate, wellsFargoTemplate, hsbcTemplate]

/-- The column-mapping form values (`columnMappingSchema`).  Optional
fields use the empty string for "unset", matching the falsiness tests the
code performs on them (`mapping.categoryColumn ? ... : -1`,
`mapping.defaultCategory || 'Uncategorized'`). -/
structure ColumnMapping where
  dateColumn : String
  amountColumn : String
  descriptionColumn : String
  categoryColumn : String
  typeColumn : String
  dateFormat : String
  defaultCategory : String
  defaultType : String
deriving Repr, DecidableEq

/-- The mapping `processFile` builds in standard mode from a template:
each template header label is resolved against the actual CSV headers by
`findBestMatchingHeader`; absent optional labels resolve to unset. -/
def templateMapping (tmpl : BankTemplate) (headers : List String) : ColumnMapping where
  dateColumn := findBestMatchingHeader headers tmpl.hdate
  amountColumn := findBestMatchingHeader headers tmpl.hamount
  descriptionColumn := findBestMatchingHeader headers tmpl.hdescription
  categoryColumn := match tmpl.hcategory with
    | some c => findBestMatchingHeader headers c
    | none => ""
  typeColumn := match tmpl.htype with
    | some c => findBestMatchingHeader headers c
    | none => ""
  dateFormat := tmpl.dateFormat
  defaultCategory := "Uncategorized"
  defaultType := "expense"

/-- A `CsvTransaction`.  The TypeScript interface is a string-indexed
object (`[key: string]: string`), so the five named fields and the
additional columns live in one namespace; `extra` holds the additional
keys, and `setField` below reproduces indexed assignment, including its
ability to overwrite the named fields. -/
structure CsvTransaction where
  date : String
  description : String
  amount : String
  category : String
  type : String
  extra : List (String × String)
deriving Repr, DecidableEq

/-- Replace the value of a key in an association list, or append the
binding; models assignment to an object property (insertion order kept,
later writes to the same key overwrite). -/
def upsert : List (String × String) → String → String → List (String × String)
  | [], k, v => [(k, v)]
  | (k', v') :: rest, k, v =>
    if k' = k then (k, v) :: rest else (k', v') :: upsert rest k v

/-- `transaction[header] = value` on the string-indexed `CsvTransaction`
object: a key equal to one of the five interface fields overwrites that
field, any other key lands among the additional properties. -/
def setField (t : CsvTransaction) (key val : String) : CsvTransaction :=
  if key = "date" then { t with date := val }
  else if key = "amount" then { t with amount := val }
  else if key = "description" then { t with description := val }
  else if key = "category" then { t with category := val }
  else if key = "type" then { t with type := val }
  else { t with extra := upsert t.extra key val }

/-- `headers.indexOf(name)`: index of the first occurrence, `-1` if absent. -/
def jsIndexOf : List String → String → Int
  | [], _ => -1
  | h :: t, x =>
    if h = x then 0
    else
      let r := jsIndexOf t x
      if r = -1 then -1 else r + 1

/-- `row[i]` for a possibly negative index: the JavaScript access yields
`undefined` out of bounds; every caller in the pipeline reads it through
positions known to be in range for rows satisfying the `RawTable`
invariant, and the model renders the out-of-range access as `""`. -/
def cellAt (row : List String) (i : Int) : String :=
  if 0 ≤ i then row.getD i.toNat "" else ""

/-- `const dateIdx = headers.indexOf(mapping.dateColumn)`. -/
def dateIdxOf (headers : List String) (mapping : ColumnMapping) : Int :=
  jsIndexOf headers mapping.dateColumn

/-- `const amountIdx = headers.indexOf(mapping.amountColumn)`. -/
def amountIdxOf (headers : List String) (mapping : ColumnMapping) : Int :=
  jsIndexOf headers mapping.amountColumn

/-- `const descriptionIdx = headers.indexOf(mapping.descriptionColumn)`. -/
def descriptionIdxOf (headers : List String) (mapping : ColumnMapping) : Int :=
  jsIndexOf headers mapping.descriptionColumn

/-- `const categoryIdx = mapping.categoryColumn ? headers.indexOf(...) : -1`
(unset column name is falsy). -/
def categoryIdxOf (headers : List String) (mapping : ColumnMapping) : Int :=
  if mapping.categoryColumn = "" then -1 else jsIndexOf headers mapping.categoryColumn

/-- `const typeIdx = mapping.typeColumn ? headers.indexOf(...) : -1`. -/
def typeIdxOf (headers : List String) (mapping : ColumnMapping) : Int :=
  if mapping.typeColumn = "" then -1 else jsIndexOf headers mapping.typeColumn

/-- Index `i` is consumed by one of the five mapped fields (the guard of
the extra-column `forEach` in `mapCsvToTransactions`). -/
def consumedIdx (headers : List String) (mapping : ColumnMapping) (i : Nat) : Prop :=
  (i : Int) = dateIdxOf headers mapping ∨ (i : Int) = amountIdxOf headers mapping ∨
  (i : Int) = descriptionIdxOf headers mapping ∨ (i : Int) = categoryIdxOf headers mapping ∨
  (i : Int) = typeIdxOf headers mapping

instance (headers : List String) (mapping : ColumnMapping) (i : Nat) :
    Decidable (consumedIdx headers mapping i) := by
  unfold consumedIdx; exact inferInstance

/-- The record literal built first for each row in `mapCsvToTransactions`:
date/amount/description from their resolved indices (empty when
unresolved), category/type from their resolved indices or the defaults
(`mapping.defaultCategory || 'Uncategorized'`,
`mapping.defaultType || 'expense'`). -/
def mapCsvRowBase (headers : List String) (mapping : ColumnMapping) (row : List String) :
    CsvTransaction where
  date := if 0 ≤ dateIdxOf headers mapping then cellAt row (dateIdxOf headers mapping) else ""
  amount := if 0 ≤ amountIdxOf headers mapping then cellAt row (amountIdxOf headers mapping) else ""
  description :=
    if 0 ≤ descriptionIdxOf headers mapping then cellAt row (descriptionIdxOf headers mapping)
    else ""
  category :=
    if 0 ≤ categoryIdxOf headers mapping then cellAt row (categoryIdxOf headers mapping)
    else if mapping.defaultCategory = "" then "Uncategorized" else mapping.defaultCategory
  type :=
    if 0 ≤ typeIdxOf headers mapping then cellAt row (typeIdxOf headers mapping)
    else if mapping.defaultType = "" then "expense" else mapping.defaultType
  extra := []

/-- The body of the `data.forEach` in `mapCsvToTransactions`: build the
record from the resolved indices, then assign every column not consumed
by the five mapped fields onto the object under its header name. -/
def mapCsvRow (headers : List String) (mapping : ColumnMapping) (row : List String) :
    CsvTransaction :=
  headers.enum.foldl (fun t p =>
    if ¬ consumedIdx headers mapping p.1 then setField t p.2 (cellAt row (p.1 : Int)) else t)
    (mapCsvRowBase headers mapping row)

/-- `mapCsvToTransactions(headers, data, mapping)`. -/
def mapCsvToTransactions (headers : List String) (data : List (List String))
    (mapping : ColumnMapping) : List CsvTransaction :=
  data.map (mapCsvRow headers mapping)

/-- `dateStr.replace(/[^\d/.-]/g, '')`: keep only digits and the three
separator characters. -/
def cleanDateStr (dateStr : String) : String :=
  String.mk (dateStr.toList.filter fun c => c.isDigit || c = '/' || c = '.' || c = '-')

/-- The split of the cleaned date string on the character class of the
three separators: split on every occurrence, preserving empty fragments
(JavaScript `String.prototype.split` with a one-character-class regex). -/
def splitDateSeps (s : String) : List String :=
  strSplit s fun c => c = '-' || c = '/' || c = '.'

/-- Year/month/day (month 1-based) read off the three parts according to
the format string; `none` when a part is not a number (`parseInt` `NaN`)
or the format is not one of the three supported layouts. -/
def layoutAssign (format p1 p2 p3 : String) : Option (Nat × Nat × Nat) :=
  if format = "YYYY-MM-DD" then
    match digitsVal p1, digitsVal p2, digitsVal p3 with
    | some y, some m, some d => some (y, m, d)
    | _, _, _ => none
  else if format = "MM/DD/YYYY" then
    match digitsVal p1, digitsVal p2, digitsVal p3 with
    | some m, some d, some y => some (y, m, d)
    | _, _, _ => none
  else if format = "DD/MM/YYYY" then
    match digitsVal p1, digitsVal p2, digitsVal p3 with
    | some d, some m, some y => some (y, m, d)
    | _, _, _ => none
  else none

/-- Gregorian leap year. -/
def isLeapYear (y : Nat) : Bool :=
  (y % 4 = 0 && y % 100 ≠ 0) || y % 400 = 0

/-- Days in a month (month 1-based; 31 for out-of-range months, never
consulted there by the callers below). -/
def daysInMonth (y m : Nat) : Nat :=
  if m = 2 then (if isLeapYear y then 29 else 28)
  else if m = 4 || m = 6 || m = 9 || m = 11 then 30
  else 31

/-- `y/m/d` (month 1-based) denotes a real Gregorian calendar date. -/
def realDate (y m d : Nat) : Prop :=
  1 ≤ m ∧ m ≤ 12 ∧ 1 ≤ d ∧ d ≤ daysInMonth y m

instance (y m d : Nat) : Decidable (realDate y m d) := by
  unfold realDate; exact inferInstance

/-- Result of `new Date(year, month-1, day)` followed by the three getter
comparisons in `parseDate`: the getters echo the arguments exactly when no
component rolls over — the month is in range, the day fits the month —
and the two-digit-year remapping (`new Date(99, ...)` meaning 1999) did
not apply, i.e. the year is at least 100.  (Dates beyond the engine's
±100,000,000-day range, reachable only with years above 275760, are not
modelled.) -/
def jsEchoOk (y m d : Nat) : Bool :=
  decide (100 ≤ y ∧ realDate y m d)

/-- A calendar date as the `parseDate` caller observes it. -/
structure JsDate where
  year : Nat
  month : Nat
  day : Nat
deriving Repr, DecidableEq

/-- `parseDate(dateStr, format)`: clean, split, require exactly three
parts, read year/month/day per the format, construct the date and return
it only if the constructed date echoes the components. -/
def parseDate (dateStr format : String) : Option JsDate :=
  match splitDateSeps (cleanDateStr dateStr) with
  | [p1, p2, p3] =>
    match layoutAssign format p1 p2 p3 with
    | some (y, m, d) => if jsEchoOk y m d then some ⟨y, m, d⟩ else none
    | none => none
  | _ => none

/-- `t.amount.replace(/[^\d.-]/g, '')`: keep only digits, dots and minus
signs. -/
def stripAmount (s : String) : String :=
  String.mk (s.toList.filter fun c => c.isDigit || c = '.' || c = '-')

/-- Value of a digit list, most significant first. -/
def natFromDigits (ds : List Char) : Nat :=
  ds.foldl (fun n c => n * 10 + (c.toNat - 48)) 0

/-- Fractional value of a digit list read after a decimal point. -/
def fracFromDigits (ds : List Char) : ℚ :=
  (natFromDigits ds : ℚ) / (10 : ℚ) ^ ds.length

/-- `parseFloat(s)` for strings over digits, `.`, `-` and `+` (the only
characters reaching it here): longest numeric prefix, `none` for `NaN`.
The exponent clause of the full grammar is unreachable because the strip
removed any `e`.  The IEEE-754 result is modelled as the exact rational. -/
def jsParseFloat (s : String) : Option ℚ :=
  let (isNeg, rest) : Bool × List Char :=
    match s.toList with
    | '-' :: r => (true, r)
    | '+' :: r => (false, r)
    | r => (false, r)
  let signed : ℚ → ℚ := fun mag => if isNeg then -mag else mag
  let intDs := rest.takeWhile Char.isDigit
  let rest2 := rest.drop intDs.length
  if intDs.isEmpty then
    match rest2 with
    | '.' :: r2 =>
      let fracDs := r2.takeWhile Char.isDigit
      if fracDs.isEmpty then none else some (signed (fracFromDigits fracDs))
    | _ => none
  else
    match rest2 with
    | '.' :: r2 =>
      some (signed ((natFromDigits intDs : ℚ) + fracFromDigits (r2.takeWhile Char.isDigit)))
    | _ => some (signed (natFromDigits intDs : ℚ))

/-- Check (a) of the validator: the date parses under the session layout. -/
def dateOk (t : CsvTransaction) (format : String) : Bool :=
  (parseDate t.date format).isSome

/-- Check (b): the amount, after stripping, parses as a number
(`!isNaN(parseFloat(...))`). -/
def amountOk (t : CsvTransaction) : Bool :=
  (jsParseFloat (stripAmount t.amount)).isSome

/-- Check (c): the description is non-blank after trimming. -/
def descriptionOk (t : CsvTransaction) : Bool :=
  strTrim t.description ≠ ""

/-- The three issue messages, exactly as `validateTransactions` pushes
them (`index` is the 0-based row position). -/
def dateIssue (index : Nat) (t : CsvTransaction) : String :=
  "Row " ++ toString (index + 1) ++ ": Invalid date format \"" ++ t.date ++ "\""

/-- Amount issue message of `validateTransactions`. -/
def amountIssue (index : Nat) (t : CsvTransaction) : String :=
  "Row " ++ toString (index + 1) ++ ": Invalid amount \"" ++ t.amount ++ "\""

/-- Description issue message of `validateTransactions`. -/
def descriptionIssue (index : Nat) : String :=
  "Row " ++ toString (index + 1) ++ ": Missing description"

/-- The issues one `forEach` iteration appends for row `index`. -/
def rowIssues (index : Nat) (t : CsvTransaction) (format : String) : List String :=
  (if dateOk t format then [] else [dateIssue index t]) ++
  (if amountOk t then [] else [amountIssue index t]) ++
  (if descriptionOk t then [] else [descriptionIssue index])

/-- `validateTransactions(transactions, dateFormat)`: the `forEach` loop
pushing up to three issues per row onto the shared `errors` array. -/
def validateTransactions (transactions : List CsvTransaction) (dateFormat : String) :
    List String :=
  transactions.enum.foldl (fun errors p =>
    let errors1 := if dateOk p.2 dateFormat then errors else errors ++ [dateIssue p.1 p.2]
    let errors2 := if amountOk p.2 then errors1 else errors1 ++ [amountIssue p.1 p.2]
    if descriptionOk p.2 then errors2 else errors2 ++ [descriptionIssue p.1]) []

/-- `new Date(s)` for the date-string shapes this pipeline can feed it,
returning the calendar date the resulting `Date` denotes (`none` for an
Invalid Date).  An ISO `YYYY-MM-DD` string is parsed per the ECMAScript
date-time string format (out-of-range components give Invalid Date); a
slash-separated numeric string is parsed by the engines' legacy path as
month/day/year regardless of any layout the user chose earlier.
Two-digit years and other legacy shapes are conservatively Invalid. -/
def jsDateFromString (s : String) : Option JsDate :=
  match strSplit s (· = '/') with
  | [p1, p2, p3] =>
    match digitsVal p1, digitsVal p2, digitsVal p3 with
    | some m, some d, some y =>
      if 100 ≤ y ∧ realDate y m d then some ⟨y, m, d⟩ else none
    | _, _, _ => none
  | _ =>
    match strSplit s (· = '-') with
    | [p1, p2, p3] =>
      if p1.length = 4 ∧ p2.length = 2 ∧ p3.length = 2 then
        match digitsVal p1, digitsVal p2, digitsVal p3 with
        | some y, some m, some d =>
          if realDate y m d then some ⟨y, m, d⟩ else none
        | _, _, _ => none
      else none
    | _ => none

/-- The persisted record built at commit time.  `id`, `user_id` and
`created_at` are opaque collaborator data (uuid, auth, clock) and are not
modelled; `transaction_date` is the calendar date of the ISO timestamp
`new Date(t.date).toISOString()` produces (UTC runtime assumed); `amount`
is `none` when the arithmetic produced `NaN`. -/
structure DbTransaction where
  transaction_date : JsDate
  description : String
  amount : Option ℚ
  category : String
  type : String
deriving Repr, DecidableEq

/-- Conversion of one selected candidate inside `importTransactions`:
`new Date(t.date).toISOString()` throws a `RangeError` on an Invalid Date
(modelled as the error case, which aborts the whole batch), and the
amount is sign-normalized by `t.type === 'expense' ? -Math.abs(amount) :
Math.abs(amount)`. -/
def convertTx (t : CsvTransaction) : Except String DbTransaction :=
  match jsDateFromString t.date with
  | none => .error "Invalid time value"
  | some dt =>
    .ok { transaction_date := dt
          description := t.description
          amount := (jsParseFloat (stripAmount t.amount)).map fun amount =>
            if t.type = "expense" then -|amount| else |amount|
          category := t.category
          type := t.type }

/-- The skip test of `importTransactions`:
`!selectedTransactions[idx] && Object.keys(selectedTransactions).length > 0`
returns `null` for the row, so a row is kept when the selection map is
empty or its entry for the index is `true` (a `false` entry is skipped
exactly like an absent one).  The selection map is modelled as an
association list with distinct keys. -/
def keepRow (sel : List (Nat × Bool)) (idx : Nat) : Bool :=
  sel.isEmpty || (sel.lookup idx).getD false

/-- The candidates `importTransactions` does not skip, in order, starting
the index count at `start`. -/
def selectedFrom (start : Nat) (parsedData : List CsvTransaction)
    (sel : List (Nat × Bool)) : List CsvTransaction :=
  match parsedData with
  | [] => []
  | t :: ts =>
    if keepRow sel start then t :: selectedFrom (start + 1) ts sel
    else selectedFrom (start + 1) ts sel

/-- The candidates `importTransactions` submits: skip test applied to the
0-based row index. -/
def selectedCandidates (parsedData : List CsvTransaction) (sel : List (Nat × Bool)) :
    List CsvTransaction :=
  selectedFrom 0 parsedData sel

/-- The `parsedData.map(...).filter(Boolean)` body of `importTransactions`
from row index `start` on: skipped rows contribute nothing, each kept row
is converted, and a conversion throw aborts the whole batch. -/
def importFrom (start : Nat) (parsedData : List CsvTransaction)
    (sel : List (Nat × Bool)) : Except String (List DbTransaction) :=
  match parsedData with
  | [] => .ok []
  | t :: ts =>
    if keepRow sel start then do
      let tx ← convertTx t
      let rest ← importFrom (start + 1) ts sel
      .ok (tx :: rest)
    else importFrom (start + 1) ts sel

/-- `importTransactions` on the parsed data and the selection map: the
batch of persistable records handed to the insert call, or the error that
sent the session to the error state. -/
def importTransactions (parsedData : List CsvTransaction) (sel : List (Nat × Bool)) :
    Except String (List DbTransaction) :=
  importFrom 0 parsedData sel

/-- The `uploadStatus` values of the Upload page. -/
inductive UploadStatus where
  | idle | uploading | parsing | mapping | preview | inserting | success | error
deriving Repr, DecidableEq

/-- The import-session state: the page's React state relevant to the
pipeline.  `committed` records, per successful commit, the candidate rows
handed to the batch insert together with the date format under which the
session had validated them (their persisted forms are the
`importTransactions` output). -/
structure Session where
  status : UploadStatus
  csvHeaders : List String
  csvData : List (List String)
  parsedData : List CsvTransaction
  validationErrors : List String
  dateFormat : String
  selectedTransactions : List (Nat × Bool)
  errorMessage : String
  committed : List (CsvTransaction × String)
deriving Repr, DecidableEq

/-- The initial page state. -/
def initSession : Session where
  status := .idle
  csvHeaders := []
  csvData := []
  parsedData := []
  validationErrors := []
  dateFormat := "YYYY-MM-DD"
  selectedTransactions := []
  errorMessage := ""
  committed := []

/-- `handleFile`: staging a file resets status, message, parsed data,
headers, rows and selection. -/
def fileReset (s : Session) : Session :=
  { s with status := .idle, errorMessage := "", parsedData := [],
           csvHeaders := [], csvData := [], selectedTransactions := [] }

/-- The shared tail of `processFile` (standard mode) and
`onSubmitMapping`: run the validator over the candidates; a non-empty
issue list sends the session to `error` leaving `parsedData` untouched,
an empty one publishes all candidates and moves to `preview`. -/
def gateValidation (s : Session) (candidates : List CsvTransaction) (format : String) :
    Session :=
  let errors := validateTransactions candidates format
  if errors.isEmpty then
    { s with status := .preview, parsedData := candidates,
             validationErrors := errors, dateFormat := format }
  else
    { s with status := .error, validationErrors := errors, dateFormat := format }

/-- `processFile` in standard mode: tokenize (tokenizer failure goes to
`error` with the message), store headers and rows, build the
template-driven mapping, map the rows and apply the validation gate. -/
def processFileStandard (s : Session) (text : String) (tmpl : BankTemplate) : Session :=
  match parseRawCSV text with
  | .error msg => { s with status := .error, errorMessage := msg }
  | .ok (headers, data) =>
    let mapping := templateMapping tmpl headers
    let candidates := mapCsvToTransactions headers data mapping
    gateValidation { s with csvHeaders := headers, csvData := data } candidates tmpl.dateFormat

/-- `processFile` in advanced mode: tokenize, store headers and rows and
wait in the `mapping` state for the user-submitted column mapping. -/
def processFileAdvanced (s : Session) (text : String) : Session :=
  match parseRawCSV text with
  | .error msg => { s with status := .error, errorMessage := msg }
  | .ok (headers, data) =>
    { s with status := .mapping, csvHeaders := headers, csvData := data }

/-- `onSubmitMapping`: map the stored rows with the user's column mapping
and apply the same validation gate. -/
def submitMappingStep (s : Session) (values : ColumnMapping) : Session :=
  gateValidation s (mapCsvToTransactions s.csvHeaders s.csvData values) values.dateFormat

/-- `importTransactions` at the session level: nothing happens on empty
parsed data; otherwise the selected candidates are converted and, on
success, inserted as one batch (recorded in `committed`); a conversion
throw or insert failure sends the session to `error` with nothing
recorded as committed. -/
def runImport (s : Session) : Session :=
  if s.parsedData.isEmpty then s
  else
    match importTransactions s.parsedData s.selectedTransactions with
    | .ok _ =>
      { s with status := .success,
               committed := s.committed ++
                 (selectedCandidates s.parsedData s.selectedTransactions).map
                   (fun t => (t, s.dateFormat)) }
    | .error msg => { s with status := .error, errorMessage := msg }

/-- One user-driven transition of the Upload page. -/
inductive SessionStep : Session → Session → Prop where
  | selectFile (s : Session) : SessionStep s (fileReset s)
  | processStd (s : Session) (text : String) (tmpl : BankTemplate) :
      s.status = .idle → SessionStep s (processFileStandard s text tmpl)
  | processAdv (s : Session) (text : String) :
      s.status = .idle → SessionStep s (processFileAdvanced s text)
  | submitMap (s : Session) (values : ColumnMapping) :
      s.status = .mapping → SessionStep s (submitMappingStep s values)
  | selectRows (s : Session) (sel : List (Nat × Bool)) :
      s.status = .preview → SessionStep s { s with selectedTransactions := sel }
  | commit (s : Session) :
      s.status = .preview → SessionStep s (runImport s)
  | cancel (s : Session) : SessionStep s { s with status := .idle }

/-- Sessions reachable from the freshly mounted page. -/
inductive ReachableSession : Session → Prop where
  | init : ReachableSession initSession
  | step {s s' : Session} : ReachableSession s → SessionStep s s' → ReachableSession s'

/-- A candidate passes all three validator checks under the layout. -/
def checksPass (t : CsvTransaction) (format : String) : Prop :=
  dateOk t format ∧ amountOk t ∧ descriptionOk t

instance (t : CsvTransaction) (format : String) : Decidable (checksPass t format) := by
  unfold checksPass; exact inferInstance

/-- The five field names of the `CsvTransaction` interface. -/
def interfaceFieldNames : List String :=
  ["date", "amount", "description", "category", "type"]

/-- No column left unconsumed by the five mapped fields bears one of the
five interface field names (such a column's values would overwrite the
corresponding field through the indexed assignment in
`mapCsvToTransactions`). -/
def noFieldClobber (headers : List String) (mapping : ColumnMapping) : Prop :=
  ∀ p ∈ headers.enum, ¬ consumedIdx headers mapping p.1 → ¬ p.2 ∈ interfaceFieldNames

instance (headers : List String) (mapping : ColumnMapping) :
    Decidable (noFieldClobber headers mapping) := by
  unfold noFieldClobber; exact inferInstance

/-- Headers of the C3 validator example. -/
def exampleHeaders : List String := ["date", "description", "amount"]

/-- Rows of the C3 validator example: only the second row has a blank
description. -/
def exampleRows : List (List String) :=
  [["2024-01-05", "Coffee", "-50"], ["2024-01-06", "", "20"]]

/-- Headers of the C7 counterexample: a column literally named
`category` that the mapping does not consume, next to the mapped
category column `cat`. -/
def clobberHeaders : List String := ["category", "cat"]

/-- Mapping of the C7 counterexample: category taken from `cat`. -/
def clobberMapping : ColumnMapping :=
  ⟨"", "", "", "cat", "", "YYYY-MM-DD", "Uncategorized", "expense"⟩

/-- Row of the C7 counterexample. -/
def clobberRow : List String := ["A", "B"]

/-- Headers of the C10 counterexample: a column literally named `type`
that the mapping does not consume, next to the mapped type column
`ttype`. -/
def typeClobberHeaders : List String := ["type", "ttype"]

/-- Mapping of the C10 counterexample: type taken from `ttype`. -/
def typeClobberMapping : ColumnMapping :=
  ⟨"", "", "", "", "ttype", "YYYY-MM-DD", "Uncategorized", "expense"⟩

/-- Row of the C10 counterexample. -/
def typeClobberRow : List String := ["HACK", "income"]

/-- The C9 candidate: a 5 February 2024 transaction written day-first.
It passes validation under the `DD/MM/YYYY` layout, but the commit step
re-parses the raw string through `new Date`, which reads it month-first. -/
def dmyCandidate : CsvTransaction :=
  ⟨"05/02/2024", "Groceries", "10", "Food", "expense", []⟩

/-- A candidate used as a concrete witness input for the commit-side
theorems: a valid ISO date, expense type, negative raw amount. -/
def witnessCandidate : CsvTransaction :=
  ⟨"2024-01-05", "Coffee", "-50", "Food", "expense", []⟩

/-- Same as `witnessCandidate` but typed as income. -/
def witnessIncomeCandidate : CsvTransaction :=
  ⟨"2024-01-06", "Salary", "1200", "Job", "income", []⟩

/-- A successful `find?` splits the list at the first hit: everything
before the hit fails the test. -/
theorem find?_split {α : Type} (p : α → Bool) :
    ∀ (l : List α) (a : α), l.find? p = some a →
      ∃ l₁ l₂, l = l₁ ++ a :: l₂ ∧ (∀ x ∈ l₁, p x = false) ∧ p a = true := by
  intro l
  induction l with
  | nil => intro a h; simp [List.find?] at h
  | cons b t ih =>
    intro a h
    by_cases hb : p b
    · refine ⟨[], t, ?_, ?_, ?_⟩ <;> simp_all [List.find?]
    · rw [List.find?] at h
      simp only [Bool.not_eq_true] at hb
      rw [hb] at h
      obtain ⟨l₁, l₂, heq, hfail, hhit⟩ := ih a h
      exact ⟨b :: l₁, l₂, by simp [heq], by simp_all, hhit⟩

/-- A member of the list has a nonnegative `indexOf`. -/
theorem jsIndexOf_nonneg {l : List String} {x : String} (hx : x ∈ l) :
    0 ≤ jsIndexOf l x := by
  induction l with
  | nil => simp at hx
  | cons h t ih =>
    rw [jsIndexOf]
    by_cases hh : h = x
    · simp [hh]
    · simp only [if_neg hh]
      have hx' : x ∈ t := by
        cases List.mem_cons.mp hx with
        | inl h1 => exact absurd h1.symm hh
        | inr h2 => exact h2
      have := ih hx'
      by_cases hr : jsIndexOf t x = -1
      · omega
      · simp only [if_neg hr]; omega

/-- A non-member has `indexOf` equal to `-1`. -/
theorem jsIndexOf_eq_neg_one {l : List String} {x : String} (hx : ¬ x ∈ l) :
    jsIndexOf l x = -1 := by
  induction l with
  | nil => rfl
  | cons h t ih =>
    rw [jsIndexOf]
    have hh : ¬ h = x := fun e => hx (e ▸ List.mem_cons_self h t)
    have ht : ¬ x ∈ t := fun m => hx (List.mem_cons_of_mem h m)
    simp [hh, ih ht]

/-- Updating a key leaves lookups of other keys unchanged. -/
theorem lookup_upsert_ne (l : List (String × String)) (k v : String) {k' : String}
    (h : k' ≠ k) : (upsert l k v).lookup k' = l.lookup k' := by
  have hk : (k' == k) = false := beq_eq_false_iff_ne.mpr h
  induction l with
  | nil => simp [upsert, List.lookup, hk]
  | cons p rest ih =>
    obtain ⟨a, b⟩ := p
    by_cases hp : a = k
    · simp [upsert, hp, List.lookup, hk]
    · by_cases ha : k' = a
      · simp [upsert, hp, List.lookup, ha]
      · have ha' : (k' == a) = false := beq_eq_false_iff_ne.mpr ha
        simp [upsert, hp, List.lookup, ha', ih]

/-- Updating a key makes its lookup the new value. -/
theorem lookup_upsert_self (l : List (String × String)) (k v : String) :
    (upsert l k v).lookup k = some v := by
  induction l with
  | nil => simp [upsert, List.lookup]
  | cons p rest ih =>
    obtain ⟨a, b⟩ := p
    by_cases hp : a = k
    · simp [upsert, hp, List.lookup]
    · have hp' : (k == a) = false := beq_eq_false_iff_ne.mpr (Ne.symm hp)
      simp [upsert, hp, List.lookup, hp', ih]

/-- Assigning a key that is not an interface field name leaves the five
fields unchanged. -/
theorem setField_noncore {key : String} (t : CsvTransaction) (v : String)
    (h : ¬ key ∈ interfaceFieldNames) :
    (setField t key v).date = t.date ∧ (setField t key v).amount = t.amount ∧
    (setField t key v).description = t.description ∧
    (setField t key v).category = t.category ∧ (setField t key v).type = t.type ∧
    (setField t key v).extra = upsert t.extra key v := by
  simp only [interfaceFieldNames, List.mem_cons, List.not_mem_nil, or_false] at h
  push_neg at h
  obtain ⟨h1, h2, h3, h4, h5⟩ := h
  simp [setField, h1, h2, h3, h4, h5]

/-- Assigning an interface field name leaves `extra` unchanged. -/
theorem setField_core_extra {key : String} (t : CsvTransaction) (v : String)
    (h : key ∈ interfaceFieldNames) :
    (setField t key v).extra = t.extra := by
  simp only [interfaceFieldNames, List.mem_cons, List.not_mem_nil, or_false] at h
  rcases h with h | h | h | h | h <;> simp [setField, h]

/-- The extra-column fold leaves the five fields unchanged when no
unconsumed column bears an interface field name. -/
theorem foldSet_core (headers : List String) (mapping : ColumnMapping) (row : List String) :
    ∀ (l : List (Nat × String)) (base : CsvTransaction),
      (∀ p ∈ l, ¬ consumedIdx headers mapping p.1 → ¬ p.2 ∈ interfaceFieldNames) →
      (l.foldl (fun t p =>
          if ¬ consumedIdx headers mapping p.1 then setField t p.2 (cellAt row (p.1 : Int)) else t)
        base).date = base.date ∧
      (l.foldl (fun t p =>
          if ¬ consumedIdx headers mapping p.1 then setField t p.2 (cellAt row (p.1 : Int)) else t)
        base).amount = base.amount ∧
      (l.foldl (fun t p =>
          if ¬ consumedIdx headers mapping p.1 then setField t p.2 (cellAt row (p.1 : Int)) else t)
        base).description = base.description ∧
      (l.foldl (fun t p =>
          if ¬ consumedIdx headers mapping p.1 then setField t p.2 (cellAt row (p.1 : Int)) else t)
        base).category = base.category ∧
      (l.foldl (fun t p =>
          if ¬ consumedIdx headers mapping p.1 then setField t p.2 (cellAt row (p.1 : Int)) else t)
        base).type = base.type := by
  intro l
  induction l with
  | nil => intro base _; simp
  | cons q rest ih =>
    intro base hl
    rw [List.foldl_cons]
    by_cases hc : consumedIdx headers mapping q.1
    · rw [if_neg (not_not_intro hc)]
      exact ih base fun p hp => hl p (List.mem_cons_of_mem q hp)
    · rw [if_pos hc]
      have hq := hl q (List.mem_cons_self q rest) hc
      obtain ⟨e1, e2, e3, e4, e5, _⟩ := setField_noncore base (cellAt row (q.1 : Int)) hq
      have ihr := ih (setField base q.2 (cellAt row (q.1 : Int)))
        (fun p hp => hl p (List.mem_cons_of_mem q hp))
      exact ⟨ihr.1.trans e1, ihr.2.1.trans e2, ihr.2.2.1.trans e3,
             ihr.2.2.2.1.trans e4, ihr.2.2.2.2.trans e5⟩

/-- The extra-column fold does not change the lookup of a name none of
the remaining columns bears. -/
theorem foldSet_extra_untouched (headers : List String) (mapping : ColumnMapping)
    (row : List String) (name : String) :
    ∀ (l : List (Nat × String)) (base : CsvTransaction),
      (∀ p ∈ l, p.2 ≠ name) →
      ((l.foldl (fun t p =>
          if ¬ consumedIdx headers mapping p.1 then setField t p.2 (cellAt row (p.1 : Int)) else t)
        base).extra).lookup name = base.extra.lookup name := by
  intro l
  induction l with
  | nil => intro base _; simp
  | cons q rest ih =>
    intro base hl
    rw [List.foldl_cons]
    by_cases hc : consumedIdx headers mapping q.1
    · rw [if_neg (not_not_intro hc)]
      exact ih base fun p hp => hl p (List.mem_cons_of_mem q hp)
    · rw [if_pos hc]
      rw [ih (setField base q.2 (cellAt row (q.1 : Int)))
        (fun p hp => hl p (List.mem_cons_of_mem q hp))]
      by_cases hcore : q.2 ∈ interfaceFieldNames
      · rw [setField_core_extra base (cellAt row (q.1 : Int)) hcore]
      · rw [(setField_noncore base (cellAt row (q.1 : Int)) hcore).2.2.2.2.2]
        exact lookup_upsert_ne base.extra q.2 (cellAt row (q.1 : Int))
          (Ne.symm (hl q (List.mem_cons_self q rest)))

/-- After the extra-column fold, the lookup of an unconsumed, non-field
column name that occurs exactly once yields that column's row value. -/
theorem foldSet_extra_hit (headers : List String) (mapping : ColumnMapping)
    (row : List String) :
    ∀ (l : List (Nat × String)) (base : CsvTransaction) (i : Nat) (name : String),
      (i, name) ∈ l → (l.map Prod.snd).Nodup →
      ¬ consumedIdx headers mapping i → ¬ name ∈ interfaceFieldNames →
      ((l.foldl (fun t p =>
          if ¬ consumedIdx headers mapping p.1 then setField t p.2 (cellAt row (p.1 : Int)) else t)
        base).extra).lookup name = some (cellAt row (i : Int)) := by
  intro l
  induction l with
  | nil => intro base i name hmem; simp at hmem
  | cons q rest ih =>
    intro base i name hmem hnd hcons hcore
    rw [List.map_cons, List.nodup_cons] at hnd
    rw [List.foldl_cons]
    rcases List.mem_cons.mp hmem with heq | hmem'
    · subst heq
      simp only at hnd
      rw [if_pos hcons]
      rw [foldSet_extra_untouched headers mapping row name rest
        (setField base name (cellAt row (i : Int)))
        (fun p hp pe => hnd.1 (pe ▸ List.mem_map_of_mem Prod.snd hp))]
      rw [(setField_noncore base (cellAt row (i : Int)) hcore).2.2.2.2.2]
      exact lookup_upsert_self base.extra name (cellAt row (i : Int))
    · have hstep : ∀ t : CsvTransaction,
          ((rest.foldl (fun t p =>
              if ¬ consumedIdx headers mapping p.1 then setField t p.2 (cellAt row (p.1 : Int))
              else t) t).extra).lookup name = some (cellAt row (i : Int)) :=
        fun t => ih t i name hmem' hnd.2 hcons hcore
      by_cases hc : consumedIdx headers mapping q.1
      · rw [if_neg (not_not_intro hc)]; exact hstep base
      · rw [if_pos hc]; exact hstep _

/-- The second components of an index-enumerated list are its members. -/
theorem snd_mem_of_mem_enumFrom {α : Type} :
    ∀ {n : Nat} {l : List α} {p : Nat × α}, p ∈ List.enumFrom n l → p.2 ∈ l := by
  intro n l
  induction l generalizing n with
  | nil => intro p hp; simp [List.enumFrom] at hp
  | cons a t ih =>
    intro p hp
    rcases List.mem_cons.mp hp with h | h
    · subst h; exact List.mem_cons_self a t
    · exact List.mem_cons_of_mem a (ih h)

/-- Every member of a list appears in its index enumeration. -/
theorem mem_enumFrom_of_mem {α : Type} :
    ∀ {n : Nat} {l : List α} {a : α}, a ∈ l → ∃ i, (i, a) ∈ List.enumFrom n l := by
  intro n l
  induction l generalizing n with
  | nil => intro a ha; simp at ha
  | cons b t ih =>
    intro a ha
    rcases List.mem_cons.mp ha with h | h
    · exact ⟨n, by simp [List.enumFrom, h]⟩
    · obtain ⟨i, hi⟩ := @ih (n + 1) a h
      exact ⟨i, List.mem_cons_of_mem _ hi⟩

/-- Dropping the indices of an index enumeration recovers the list. -/
theorem enumFrom_map_snd {α : Type} :
    ∀ (n : Nat) (l : List α), (List.enumFrom n l).map Prod.snd = l := by
  intro n l
  induction l generalizing n with
  | nil => rfl
  | cons a t ih => simp [List.enumFrom, ih]

/-- A row's issue list is empty exactly when all three checks pass. -/
theorem rowIssues_eq_nil_iff (index : Nat) (t : CsvTransaction) (format : String) :
    rowIssues index t format = [] ↔ (dateOk t format ∧ amountOk t ∧ descriptionOk t) := by
  unfold rowIssues
  cases hd : dateOk t format <;> cases ha : amountOk t <;> cases hs : descriptionOk t <;> simp

/-- The validator loop, started from any accumulator and index, appends
the concatenated per-row issue lists. -/
theorem validate_foldl_general (format : String) :
    ∀ (ts : List CsvTransaction) (n : Nat) (acc : List String),
      (List.enumFrom n ts).foldl (fun errors p =>
        let errors1 := if dateOk p.2 format then errors else errors ++ [dateIssue p.1 p.2]
        let errors2 := if amountOk p.2 then errors1 else errors1 ++ [amountIssue p.1 p.2]
        if descriptionOk p.2 then errors2 else errors2 ++ [descriptionIssue p.1]) acc =
      acc ++ ((List.enumFrom n ts).map fun p => rowIssues p.1 p.2 format).flatten := by
  intro ts
  induction ts with
  | nil => intro n acc; simp [List.enumFrom]
  | cons t rest ih =>
    intro n acc
    show (List.enumFrom (n + 1) rest).foldl _
        (let errors1 := if dateOk t format then acc else acc ++ [dateIssue n t]
         let errors2 := if amountOk t then errors1 else errors1 ++ [amountIssue n t]
         if descriptionOk t then errors2 else errors2 ++ [descriptionIssue n]) = _
    rw [ih (n + 1)]
    have hstep :
        (let errors1 := if dateOk t format then acc else acc ++ [dateIssue n t]
         let errors2 := if amountOk t then errors1 else errors1 ++ [amountIssue n t]
         if descriptionOk t then errors2 else errors2 ++ [descriptionIssue n]) =
        acc ++ rowIssues n t format := by
      unfold rowIssues
      cases dateOk t format <;> cases amountOk t <;> cases descriptionOk t <;> simp
    rw [hstep]
    simp [List.enumFrom]

/-- `validateTransactions` is the concatenation of the per-row issue
lists, rows numbered from 0. -/
theorem validate_eq_join (ts : List CsvTransaction) (format : String) :
    validateTransactions ts format =
      (ts.enum.map fun p => rowIssues p.1 p.2 format).flatten := by
  have := validate_foldl_general format ts 0 []
  simpa [validateTransactions, List.enum] using this

/-- The validator returns no issues exactly when every candidate passes
all three checks. -/
theorem validate_eq_nil_iff (ts : List CsvTransaction) (format : String) :
    validateTransactions ts format = [] ↔ ∀ t ∈ ts, checksPass t format := by
  rw [validate_eq_join]
  rw [List.flatten_eq_nil_iff]
  constructor
  · intro h t ht
    obtain ⟨i, hi⟩ := mem_enumFrom_of_mem (n := 0) ht
    have := h (rowIssues i t format) (List.mem_map_of_mem _ hi)
    exact (rowIssues_eq_nil_iff i t format).mp this
  · intro h l hl
    obtain ⟨p, hp, rfl⟩ := List.mem_map.mp hl
    have ht : p.2 ∈ ts := snd_mem_of_mem_enumFrom hp
    exact (rowIssues_eq_nil_iff p.1 p.2 format).mpr (h p.2 ht)

/-- With an empty selection map every row is kept. -/
theorem selectedFrom_empty_sel : ∀ (n : Nat) (pd : List CsvTransaction),
    selectedFrom n pd [] = pd := by
  intro n pd
  induction pd generalizing n with
  | nil => rfl
  | cons t ts ih => simp [selectedFrom, keepRow, ih]

/-- With a non-empty selection map, the kept rows are exactly those whose
index looks up to `true`. -/
theorem selectedFrom_filter {sel : List (Nat × Bool)} (hsel : sel ≠ []) :
    ∀ (n : Nat) (pd : List CsvTransaction),
      selectedFrom n pd sel =
        ((List.enumFrom n pd).filter fun p => (sel.lookup p.1).getD false).map Prod.snd := by
  have hkeep : ∀ i, keepRow sel i = (sel.lookup i).getD false := by
    intro i
    unfold keepRow
    cases sel with
    | nil => exact absurd rfl hsel
    | cons a l => simp
  intro n pd
  induction pd generalizing n with
  | nil => rfl
  | cons t ts ih =>
    rw [selectedFrom, hkeep]
    cases hk : (sel.lookup n).getD false with
    | true => simp [List.enumFrom, List.filter_cons, hk, ih]
    | false => simp [List.enumFrom, List.filter_cons, hk, ih]

/-- Every selected candidate is one of the parsed candidates. -/
theorem selectedFrom_subset {sel : List (Nat × Bool)} :
    ∀ {n : Nat} {pd : List CsvTransaction} {t : CsvTransaction},
      t ∈ selectedFrom n pd sel → t ∈ pd := by
  intro n pd
  induction pd generalizing n with
  | nil => intro t ht; simp [selectedFrom] at ht
  | cons a ts ih =>
    intro t ht
    rw [selectedFrom] at ht
    by_cases hk : keepRow sel n
    · rw [if_pos hk] at ht
      rcases List.mem_cons.mp ht with h | h
      · exact h ▸ List.mem_cons_self a ts
      · exact List.mem_cons_of_mem a (ih h)
    · rw [if_neg hk] at ht
      exact List.mem_cons_of_mem a (ih ht)

/-- The import loop is the monadic conversion of the selected rows. -/
theorem importFrom_eq_mapM (sel : List (Nat × Bool)) :
    ∀ (n : Nat) (pd : List CsvTransaction),
      importFrom n pd sel = (selectedFrom n pd sel).mapM convertTx := by
  intro n pd
  induction pd generalizing n with
  | nil => rfl
  | cons t ts ih =>
    rw [importFrom, selectedFrom]
    by_cases hk : keepRow sel n
    · rw [if_pos hk, if_pos hk, List.mapM_cons, ih]
      cases convertTx t <;> cases hrest : (selectedFrom (n + 1) ts sel).mapM convertTx <;>
        rfl
    · rw [if_neg hk, if_neg hk, ih]

/-- `importTransactions` converts exactly the selected candidates, in
order. -/
theorem importTransactions_eq_mapM (pd : List CsvTransaction) (sel : List (Nat × Bool)) :
    importTransactions pd sel = (selectedCandidates pd sel).mapM convertTx :=
  importFrom_eq_mapM sel 0 pd

/-- The invariant maintained by every session transition: candidates
published to the preview (and hence available to the commit step) have
passed all validator checks under the session's date format, and every
row ever handed to the batch insert passed all checks under the format
its batch was validated with. -/
def sessionInv (s : Session) : Prop :=
  (s.status = .preview → ∀ t ∈ s.parsedData, checksPass t s.dateFormat) ∧
  (∀ p ∈ s.committed, checksPass p.1 p.2)

/-- Validation-gate branch behaviour: non-empty issues go to `error` and
leave the published candidates unchanged; empty issues publish all
candidates and go to `preview`.  In both branches the issue list is
stored and the format remembered. -/
theorem gateValidation_cases (s : Session) (candidates : List CsvTransaction)
    (format : String) :
    (validateTransactions candidates format ≠ [] →
      gateValidation s candidates format =
        { s with status := .error,
                 validationErrors := validateTransactions candidates format,
                 dateFormat := format }) ∧
    (validateTransactions candidates format = [] →
      gateValidation s candidates format =
        { s with status := .preview, parsedData := candidates,
                 validationErrors := validateTransactions candidates format,
                 dateFormat := format }) := by
  constructor
  · intro h
    unfold gateValidation
    rw [if_neg (by simpa [List.isEmpty_iff] using h)]
  · intro h
    unfold gateValidation
    rw [if_pos (by simpa [List.isEmpty_iff] using h)]

/-- The validation gate preserves the session invariant. -/
theorem gateValidation_inv (s : Session) (candidates : List CsvTransaction)
    (format : String) (hs : sessionInv s) :
    sessionInv (gateValidation s candidates format) := by
  obtain ⟨hgne, hge⟩ := gateValidation_cases s candidates format
  by_cases h : validateTransactions candidates format = []
  · rw [hge h]
    refine ⟨fun _ t ht => ?_, hs.2⟩
    exact (validate_eq_nil_iff candidates format).mp h t ht
  · rw [hgne h]
    exact ⟨fun hpre => by simp at hpre, hs.2⟩

/-- Every single transition preserves the session invariant. -/
theorem sessionStep_inv {s s' : Session} (hs : sessionInv s) (hstep : SessionStep s s') :
    sessionInv s' := by
  cases hstep with
  | selectFile =>
    exact ⟨fun _ t ht => by simp [fileReset] at ht, hs.2⟩
  | processStd text tmpl hidle =>
    unfold processFileStandard
    cases parseRawCSV text with
    | error msg => exact ⟨fun hpre => by simp at hpre, hs.2⟩
    | ok hd => exact gateValidation_inv _ _ _ ⟨fun hpre => by simp [hidle] at hpre, hs.2⟩
  | processAdv text hidle =>
    unfold processFileAdvanced
    cases parseRawCSV text with
    | error msg => exact ⟨fun hpre => by simp at hpre, hs.2⟩
    | ok hd =>
      refine ⟨fun hpre => by simp at hpre, hs.2⟩
  | submitMap values hmap =>
    exact gateValidation_inv _ _ _ hs
  | selectRows sel hpre =>
    exact ⟨fun _ t ht => hs.1 hpre t ht, hs.2⟩
  | commit hpre =>
    unfold runImport
    by_cases hempty : s.parsedData.isEmpty
    · rw [if_pos hempty]; exact hs
    · rw [if_neg hempty]
      cases importTransactions s.parsedData s.selectedTransactions with
      | error msg => exact ⟨fun h => by simp at h, hs.2⟩
      | ok txs =>
        refine ⟨fun h => by simp at h, ?_⟩
        intro p hp
        rcases List.mem_append.mp hp with h | h
        · exact hs.2 p h
        · obtain ⟨t, ht, rfl⟩ := List.mem_map.mp h
          exact hs.1 hpre t (selectedFrom_subset ht)
  | cancel =>
    exact ⟨fun h => by simp at h, hs.2⟩

/-- Every reachable session satisfies the invariant. -/
theorem reachable_inv {s : Session} (h : ReachableSession s) : sessionInv s := by
  induction h with
  | init =>
    refine ⟨fun h => by simp [initSession] at h, fun p hp => ?_⟩
    simp [initSession] at hp
  | step _ hstep ih => exact sessionStep_inv ih hstep

/-- Claim C2: for every raw string and every supported layout, `parseDate`
is total (a function into `Option`, never throwing) and returns a date
exactly when the cleaned string splits into three numeric parts whose
year/month/day assignment per the layout is a calendar date that the
constructed date echoes exactly (rejecting rollover); the returned
components are those parts.  In particular 2024-02-30 is rejected,
2024-02-29 (leap year) accepted, and 02/29/2023 (not a leap year)
rejected. -/
theorem c2_parseDate_correct :
    (∀ (s format : String),
      (parseDate s format).isSome = true ↔
        ∃ p1 p2 p3 y m d, splitDateSeps (cleanDateStr s) = [p1, p2, p3] ∧
          layoutAssign format p1 p2 p3 = some (y, m, d) ∧ 100 ≤ y ∧ realDate y m d) ∧
    (∀ (s format : String) (dt : JsDate), parseDate s format = some dt →
      ∃ p1 p2 p3, splitDateSeps (cleanDateStr s) = [p1, p2, p3] ∧
        layoutAssign format p1 p2 p3 = some (dt.year, dt.month, dt.day) ∧
        100 ≤ dt.year ∧ realDate dt.year dt.month dt.day) ∧
    parseDate "2024-02-30" "YYYY-MM-DD" = none ∧
    parseDate "2024-02-29" "YYYY-MM-DD" = some ⟨2024, 2, 29⟩ ∧
    parseDate "02/29/2023" "MM/DD/YYYY" = none := by
  have main : ∀ (s format : String),
      (parseDate s format).isSome = true ↔
        ∃ p1 p2 p3 y m d, splitDateSeps (cleanDateStr s) = [p1, p2, p3] ∧
          layoutAssign format p1 p2 p3 = some (y, m, d) ∧ 100 ≤ y ∧ realDate y m d := by
    intro s format
    rcases hsplit : splitDateSeps (cleanDateStr s) with _ | ⟨p1, _ | ⟨p2, _ | ⟨p3, _ | ⟨p4, rest⟩⟩⟩⟩
    · simp [parseDate, hsplit]
    · simp [parseDate, hsplit]
    · simp [parseDate, hsplit]
    · rcases hassign : layoutAssign format p1 p2 p3 with _ | ⟨y, m, d⟩
      · simp [parseDate, hsplit, hassign]
      · by_cases hecho : 100 ≤ y ∧ realDate y m d
        · have he : jsEchoOk y m d = true := by
            unfold jsEchoOk; exact decide_eq_true hecho
          simp only [parseDate, hsplit, hassign, he, if_true]
          constructor
          · intro _
            exact ⟨p1, p2, p3, y, m, d, rfl, hassign, hecho.1, hecho.2⟩
          · intro _; rfl
        · have he : jsEchoOk y m d = false := by
            unfold jsEchoOk; exact decide_eq_false hecho
          simp only [parseDate, hsplit, hassign, he, if_false]
          constructor
          · intro h; exact absurd h (by simp)
          · rintro ⟨q1, q2, q3, y', m', d', hq, ha, h100, hreal⟩
            injection hq with e1 hq; injection hq with e2 hq; injection hq with e3 _
            subst e1; subst e2; subst e3
            rw [hassign] at ha
            injection ha with ha
            injection ha with ey ha
            injection ha with em ed
            subst ey; subst em; subst ed
            exact absurd ⟨h100, hreal⟩ hecho
    · simp [parseDate, hsplit]
  refine ⟨main, ?_, by decide, by decide, by decide⟩
  intro s format dt hsome
  have hiso : (parseDate s format).isSome = true := by rw [hsome]; rfl
  obtain ⟨p1, p2, p3, y, m, d, hsplit, hassign, h100, hreal⟩ := (main s format).mp hiso
  have hval : parseDate s format = some ⟨y, m, d⟩ := by
    have he : jsEchoOk y m d = true := by
      unfold jsEchoOk; exact decide_eq_true ⟨h100, hreal⟩
    simp only [parseDate, hsplit, hassign, he, if_true]
  rw [hsome] at hval
  injection hval with hdt
  subst hdt
  exact ⟨p1, p2, p3, hsplit, hassign, h100, hreal⟩

/-- Claim C4: `parseRawCSV` fails with the format error exactly when the
input has fewer than 2 non-blank lines; otherwise it returns the first
non-blank line parsed as headers and exactly the subsequent lines whose
parsed field count equals the header count, so every returned row has the
header's field count, and for consistent input the returned row count
equals the data-line count. -/
theorem c4_tokenizer_contract (text : String) :
    ((∃ e, parseRawCSV text = .error e) ↔ (nonBlankLines text).length < 2) ∧
    (∀ headers data, parseRawCSV text = .ok (headers, data) →
      headers = parseCsvLine ((nonBlankLines text).headD "") ∧
      data = (((nonBlankLines text).drop 1).map parseCsvLine).filter
        (fun rowData => rowData.length = headers.length) ∧
      (∀ row ∈ data, row.length = headers.length) ∧
      ((∀ line ∈ (nonBlankLines text).drop 1, (parseCsvLine line).length = headers.length) →
        data.length = (nonBlankLines text).length - 1)) := by
  constructor
  · by_cases h : (nonBlankLines text).length < 2
    · simp only [parseRawCSV, if_pos h]
      exact ⟨fun _ => h, fun _ => ⟨_, rfl⟩⟩
    · simp only [parseRawCSV, if_neg h]
      exact ⟨fun ⟨e, he⟩ => absurd he (by simp), fun hlt => absurd hlt h⟩
  · intro headers data hok
    unfold parseRawCSV at hok
    by_cases h : (nonBlankLines text).length < 2
    · rw [if_pos h] at hok; exact absurd hok (by simp)
    · rw [if_neg h] at hok
      injection hok with hok
      obtain ⟨hh, hd⟩ := Prod.mk.injEq .. ▸ hok
      refine ⟨hh.symm, ?_, ?_, ?_⟩
      · rw [← hh, ← hd]
      · intro row hrow
        rw [← hd] at hrow
        have := (List.mem_filter.mp hrow).2
        rw [hh] at this
        exact of_decide_eq_true this
      · intro hall
        have hfull : (((nonBlankLines text).drop 1).map parseCsvLine).filter
            (fun rowData => rowData.length = headers.length) =
            ((nonBlankLines text).drop 1).map parseCsvLine := by
          apply List.filter_eq_self.mpr
          intro a ha
          obtain ⟨line, hline, rfl⟩ := List.mem_map.mp ha
          exact decide_eq_true (hall line hline)
        rw [← hd, hh, hfull, List.length_map, List.length_drop]

/-- Witness for C4 at a concrete two-line input with consistent field
counts: the returned row count equals the data-line count. -/
theorem c4_tokenizer_witness :
    ([["a", "b"]] : List (List String)).length = (nonBlankLines "h1,h2\na,b").length - 1 :=
  ((c4_tokenizer_contract "h1,h2\na,b").2 ["h1", "h2"] [["a", "b"]] rfl).2.2.2 (by decide)

/-- Claim C5: `findBestMatchingHeader` returns the first header (in
header order) whose normalized form equals the normalized target; failing
that the first whose normalized form contains the normalized target or is
contained in it; failing that the empty string — the exact tier always
preferred.  In particular the "date" target matches "Transaction Date". -/
theorem c5_header_matcher_tiering (headers : List String) (target : String) :
    ((∃ h ∈ headers, exactHeaderMatch (normHeader target) h) →
      ∃ l₁ l₂, headers = l₁ ++ findBestMatchingHeader headers target :: l₂ ∧
        exactHeaderMatch (normHeader target) (findBestMatchingHeader headers target) = true ∧
        ∀ x ∈ l₁, exactHeaderMatch (normHeader target) x = false) ∧
    ((∀ h ∈ headers, exactHeaderMatch (normHeader target) h = false) →
      (∃ h ∈ headers, partialHeaderMatch (normHeader target) h) →
      ∃ l₁ l₂, headers = l₁ ++ findBestMatchingHeader headers target :: l₂ ∧
        partialHeaderMatch (normHeader target) (findBestMatchingHeader headers target) = true ∧
        ∀ x ∈ l₁, partialHeaderMatch (normHeader target) x = false) ∧
    ((∀ h ∈ headers, exactHeaderMatch (normHeader target) h = false) →
      (∀ h ∈ headers, partialHeaderMatch (normHeader target) h = false) →
      findBestMatchingHeader headers target = "") ∧
    findBestMatchingHeader ["Transaction Date", "Amount"] "date" = "Transaction Date" := by
  refine ⟨?_, ?_, ?_, by decide⟩
  · rintro ⟨h, hmem, hmatch⟩
    cases hfind : headers.find? (exactHeaderMatch (normHeader target)) with
    | none =>
      exact absurd hmatch (by simpa using List.find?_eq_none.mp hfind h hmem)
    | some a =>
      have hres : findBestMatchingHeader headers target = a := by
        simp only [findBestMatchingHeader, hfind]
      obtain ⟨l₁, l₂, heq, hfail, hhit⟩ := find?_split _ headers a hfind
      exact ⟨l₁, l₂, by rw [hres]; exact heq, by rw [hres]; exact hhit, hfail⟩
  · intro hnoexact hex
    have hnone : headers.find? (exactHeaderMatch (normHeader target)) = none :=
      List.find?_eq_none.mpr fun x hx => by simp [hnoexact x hx]
    obtain ⟨h, hmem, hmatch⟩ := hex
    cases hfind : headers.find? (partialHeaderMatch (normHeader target)) with
    | none =>
      exact absurd hmatch (by simpa using List.find?_eq_none.mp hfind h hmem)
    | some a =>
      have hres : findBestMatchingHeader headers target = a := by
        simp only [findBestMatchingHeader, hnone, hfind]
      obtain ⟨l₁, l₂, heq, hfail, hhit⟩ := find?_split _ headers a hfind
      exact ⟨l₁, l₂, by rw [hres]; exact heq, by rw [hres]; exact hhit, hfail⟩
  · intro hnoexact hnopart
    have h1 : headers.find? (exactHeaderMatch (normHeader target)) = none :=
      List.find?_eq_none.mpr fun x hx => by simp [hnoexact x hx]
    have h2 : headers.find? (partialHeaderMatch (normHeader target)) = none :=
      List.find?_eq_none.mpr fun x hx => by simp [hnopart x hx]
    simp only [findBestMatchingHeader, h1, h2]

/-- Witness for C5 at the spec's example: the partial tier fires and
returns the first (and only) partially matching header. -/
theorem c5_header_matcher_witness :
    ∃ l₁ l₂, ["Transaction Date", "Amount"] =
      l₁ ++ findBestMatchingHeader ["Transaction Date", "Amount"] "date" :: l₂ ∧
      partialHeaderMatch (normHeader "date")
        (findBestMatchingHeader ["Transaction Date", "Amount"] "date") = true ∧
      ∀ x ∈ l₁, partialHeaderMatch (normHeader "date") x = false :=
  (c5_header_matcher_tiering ["Transaction Date", "Amount"] "date").2.1
    (by decide) ⟨"Transaction Date", by decide, by decide⟩

/-- Witness for C2: the characterization applied at 2024-02-29 (a leap
day) under the year-first layout, hypotheses discharged concretely. -/
theorem c2_parseDate_witness : (parseDate "2024-02-29" "YYYY-MM-DD").isSome = true :=
  (c2_parseDate_correct.1 "2024-02-29" "YYYY-MM-DD").mpr
    ⟨"2024", "02", "29", 2024, 2, 29, by decide, by decide, by decide, by decide⟩

/-- Claim C3: the validator is the concatenation of per-row issue lists
(all three checks run on every candidate, one issue per violated check,
no short-circuit), returns no issues exactly when every candidate passes
all three checks, and on the two-row example with one blank description
returns exactly the one issue referencing row 2. -/
theorem c3_validator_complete (ts : List CsvTransaction) (format : String) :
    validateTransactions ts format =
      (ts.enum.map fun p => rowIssues p.1 p.2 format).flatten ∧
    (validateTransactions ts format = [] ↔ ∀ t ∈ ts, checksPass t format) ∧
    validateTransactions
      (mapCsvToTransactions exampleHeaders exampleRows
        (templateMapping genericTemplate exampleHeaders)) "YYYY-MM-DD" =
      ["Row 2: Missing description"] :=
  ⟨validate_eq_join ts format, validate_eq_nil_iff ts format, by decide⟩

/-- Witness for C3: a single all-valid candidate yields the empty issue
list through the emptiness characterization. -/
theorem c3_validator_witness : validateTransactions [witnessCandidate] "YYYY-MM-DD" = [] :=
  ((c3_validator_complete [witnessCandidate] "YYYY-MM-DD").2.1).mpr (by decide)

/-- Claim C6: `importTransactions` converts exactly the selected
candidates, and each produced persistable record's amount is the negation
of the absolute value of the parsed (stripped) amount for type
`expense`, and the positive absolute value for type `income`. -/
theorem c6_commit_sign_normalization :
    (∀ (pd : List CsvTransaction) (sel : List (Nat × Bool)),
      importTransactions pd sel = (selectedCandidates pd sel).mapM convertTx) ∧
    (∀ (t : CsvTransaction) (tx : DbTransaction) (q : ℚ),
      convertTx t = .ok tx → jsParseFloat (stripAmount t.amount) = some q →
      (t.type = "expense" → tx.amount = some (-|q|)) ∧
      (t.type = "income" → tx.amount = some |q|)) := by
  refine ⟨importTransactions_eq_mapM, ?_⟩
  intro t tx q hok hq
  unfold convertTx at hok
  cases hdate : jsDateFromString t.date with
  | none => rw [hdate] at hok; exact absurd hok (by simp)
  | some dt =>
    rw [hdate] at hok
    injection hok with hok
    subst hok
    constructor
    · intro hexp
      simp only [hq, Option.map_some']
      rw [if_pos hexp]
    · intro hinc
      have hne : ¬ t.type = "expense" := by rw [hinc]; decide
      simp only [hq, Option.map_some']
      rw [if_neg hne]

/-- Witness for C6: the expense candidate with raw amount "-50" commits
with amount exactly the negated absolute value of the parsed -50. -/
theorem c6_commit_sign_witness :
    (⟨⟨2024, 1, 5⟩, "Coffee", some (-50), "Food", "expense"⟩ : DbTransaction).amount =
      some (-|(-50 : ℚ)|) :=
  (c6_commit_sign_normalization.2 witnessCandidate
    ⟨⟨2024, 1, 5⟩, "Coffee", some (-50), "Food", "expense"⟩ (-50) rfl (by decide)).1 rfl

/-- Claim C8: with an empty selection map every parsed candidate is
converted and submitted; with a non-empty map exactly the candidates
whose index looks up to `true` are submitted (an entry mapped to `false`
is excluded just like an absent entry, as the final conjunct's
lookup-invariance states). -/
theorem c8_selection_semantics :
    (∀ pd : List CsvTransaction, importTransactions pd [] = pd.mapM convertTx) ∧
    (∀ (pd : List CsvTransaction) (sel : List (Nat × Bool)), sel ≠ [] →
      importTransactions pd sel =
        ((pd.enum.filter fun p => (sel.lookup p.1).getD false).map Prod.snd).mapM convertTx) ∧
    (∀ (pd : List CsvTransaction) (sel sel' : List (Nat × Bool)), sel ≠ [] → sel' ≠ [] →
      (∀ i, (sel.lookup i).getD false = (sel'.lookup i).getD false) →
      importTransactions pd sel = importTransactions pd sel') := by
  refine ⟨?_, ?_, ?_⟩
  · intro pd
    rw [importTransactions_eq_mapM, selectedCandidates, selectedFrom_empty_sel]
  · intro pd sel hsel
    rw [importTransactions_eq_mapM, selectedCandidates, selectedFrom_filter hsel]
    rfl
  · intro pd sel sel' hsel hsel' hsame
    rw [importTransactions_eq_mapM, importTransactions_eq_mapM, selectedCandidates,
        selectedCandidates, selectedFrom_filter hsel, selectedFrom_filter hsel',
        List.filter_congr fun p _ => hsame p.1]

/-- Witness for C8: a two-row batch with row 0 selected and row 1 mapped
to `false` submits exactly the row-0 conversion. -/
theorem c8_selection_witness :
    importTransactions [witnessCandidate, witnessIncomeCandidate] [(0, true), (1, false)] =
      ((([witnessCandidate, witnessIncomeCandidate].enum.filter
          fun p => (([(0, true), (1, false)].lookup p.1).getD false)).map Prod.snd).mapM
        convertTx) :=
  c8_selection_semantics.2.1 [witnessCandidate, witnessIncomeCandidate]
    [(0, true), (1, false)] (by decide)

/-- Claim C9: the committed `transaction_date` comes from the engine's
default string-to-date conversion applied to the raw date string (the
session's chosen layout is not an input of the conversion), and the
day-first candidate "05/02/2024" passes validation under `DD/MM/YYYY`
as 5 February 2024 yet commits as 2 May 2024 — a different calendar
date. -/
theorem c9_commit_reparse_divergence :
    (∀ (t : CsvTransaction) (tx : DbTransaction), convertTx t = .ok tx →
      jsDateFromString t.date = some tx.transaction_date) ∧
    validateTransactions [dmyCandidate] "DD/MM/YYYY" = [] ∧
    parseDate dmyCandidate.date "DD/MM/YYYY" = some ⟨2024, 2, 5⟩ ∧
    importTransactions [dmyCandidate] [] =
      .ok [⟨⟨2024, 5, 2⟩, "Groceries", some (-10), "Food", "expense"⟩] ∧
    (⟨2024, 5, 2⟩ : JsDate) ≠ (⟨2024, 2, 5⟩ : JsDate) := by
  refine ⟨?_, by decide, by decide, rfl, by decide⟩
  intro t tx hok
  unfold convertTx at hok
  cases hdate : jsDateFromString t.date with
  | none => rw [hdate] at hok; exact absurd hok (by simp)
  | some dt =>
    rw [hdate] at hok
    injection hok with hok
    subst hok
    rfl

/-- Witness for C9: the general commit-date fact applied to the
day-first candidate, whose conversion is computed concretely. -/
theorem c9_commit_reparse_witness :
    jsDateFromString dmyCandidate.date = some (⟨2024, 5, 2⟩ : JsDate) :=
  c9_commit_reparse_divergence.1 dmyCandidate
    ⟨⟨2024, 5, 2⟩, "Groceries", some (-10), "Food", "expense"⟩ rfl

/-- Claim C1: in both standard mode (`processFile`, which factors through
the gate after tokenizing and template mapping) and advanced mode
(`onSubmitMapping`), a non-empty validator issue list sends the session
to `error` without publishing any candidate (the preview data is left
unchanged), while an empty issue list publishes all candidates and moves
to `preview`; consequently, along every reachable session history, every
row ever handed to the commit batch passed all validator checks under the
format its batch was validated with. -/
theorem c1_all_or_nothing_gate :
    (∀ (s : Session) (candidates : List CsvTransaction) (format : String),
      validateTransactions candidates format ≠ [] →
      (gateValidation s candidates format).status = .error ∧
      (gateValidation s candidates format).parsedData = s.parsedData) ∧
    (∀ (s : Session) (candidates : List CsvTransaction) (format : String),
      validateTransactions candidates format = [] →
      (gateValidation s candidates format).status = .preview ∧
      (gateValidation s candidates format).parsedData = candidates) ∧
    (∀ (s : Session) (text : String) (tmpl : BankTemplate)
        (headers : List String) (data : List (List String)),
      parseRawCSV text = .ok (headers, data) →
      processFileStandard s text tmpl =
        gateValidation { s with csvHeaders := headers, csvData := data }
          (mapCsvToTransactions headers data (templateMapping tmpl headers)) tmpl.dateFormat) ∧
    (∀ (s : Session) (values : ColumnMapping),
      submitMappingStep s values =
        gateValidation s (mapCsvToTransactions s.csvHeaders s.csvData values)
          values.dateFormat) ∧
    (∀ s : Session, ReachableSession s → ∀ p ∈ s.committed, checksPass p.1 p.2) := by
  refine ⟨?_, ?_, ?_, fun s values => rfl, fun s hr => (reachable_inv hr).2⟩
  · intro s candidates format hne
    rw [(gateValidation_cases s candidates format).1 hne]
    exact ⟨rfl, rfl⟩
  · intro s candidates format he
    rw [(gateValidation_cases s candidates format).2 he]
    exact ⟨rfl, rfl⟩
  · intro s text tmpl headers data hok
    unfold processFileStandard
    rw [hok]

/-- Witness for C1: a batch whose single candidate fails every check
drives the gate to the error state. -/
theorem c1_all_or_nothing_witness :
    (gateValidation initSession [⟨"", "", "", "", "", []⟩] "YYYY-MM-DD").status = .error :=
  (c1_all_or_nothing_gate.1 initSession [⟨"", "", "", "", "", []⟩] "YYYY-MM-DD" (by decide)).1

/-- When no unconsumed column bears an interface field name, the
extra-column pass leaves the five fields as the base record built them. -/
theorem mapCsvRow_core_fields (headers : List String) (mapping : ColumnMapping)
    (row : List String) (hnc : noFieldClobber headers mapping) :
    (mapCsvRow headers mapping row).date = (mapCsvRowBase headers mapping row).date ∧
    (mapCsvRow headers mapping row).amount = (mapCsvRowBase headers mapping row).amount ∧
    (mapCsvRow headers mapping row).description =
      (mapCsvRowBase headers mapping row).description ∧
    (mapCsvRow headers mapping row).category = (mapCsvRowBase headers mapping row).category ∧
    (mapCsvRow headers mapping row).type = (mapCsvRowBase headers mapping row).type :=
  foldSet_core headers mapping row headers.enum (mapCsvRowBase headers mapping row) hnc

/-- An unset or absent category column resolves to index `-1`. -/
theorem categoryIdxOf_unresolved (headers : List String) (mapping : ColumnMapping)
    (h : mapping.categoryColumn = "" ∨ ¬ mapping.categoryColumn ∈ headers) :
    categoryIdxOf headers mapping = -1 := by
  unfold categoryIdxOf
  rcases h with h | h
  · rw [if_pos h]
  · by_cases hcc : mapping.categoryColumn = ""
    · rw [if_pos hcc]
    · rw [if_neg hcc]; exact jsIndexOf_eq_neg_one h

/-- An unset or absent type column resolves to index `-1`. -/
theorem typeIdxOf_unresolved (headers : List String) (mapping : ColumnMapping)
    (h : mapping.typeColumn = "" ∨ ¬ mapping.typeColumn ∈ headers) :
    typeIdxOf headers mapping = -1 := by
  unfold typeIdxOf
  rcases h with h | h
  · rw [if_pos h]
  · by_cases hcc : mapping.typeColumn = ""
    · rw [if_pos hcc]
    · rw [if_neg hcc]; exact jsIndexOf_eq_neg_one h

/-- Claim C7 counterexample: headers `["category", "cat"]`, the category
column mapped to `cat` (present at index 1, cell value "B"), one data row
`["A", "B"]`.  The claim as stated predicts the candidate's category is
"B", the value at the resolved column index; the code instead yields "A",
because the unconsumed column literally named `category` is assigned onto
the record afterwards and overwrites the field. -/
theorem c7_row_mapper_counterexample :
    clobberMapping.categoryColumn ≠ "" ∧ clobberMapping.categoryColumn ∈ clobberHeaders ∧
    cellAt clobberRow (jsIndexOf clobberHeaders clobberMapping.categoryColumn) = "B" ∧
    (mapCsvToTransactions clobberHeaders [clobberRow] clobberMapping).map
      (fun t => t.category) = ["A"] ∧
    ("A" : String) ≠ "B" := by decide

/-- Claim C7 (amended): `mapCsvToTransactions` produces exactly one
candidate per data row; provided no unconsumed header bears one of the
five interface field names (such a header's row value overwrites the
corresponding field — the counterexample), category and type come from
their resolved column indices when the column is mapped and present, and
otherwise fall back to the configured defaults (the built-in
"Uncategorized"/"expense" when the default itself is unset); and, for
pairwise-distinct headers, every unconsumed header's row value is
preserved in the candidate's extra data keyed by the original header
name. -/
theorem c7_row_mapper_amended (headers : List String) (data : List (List String))
    (mapping : ColumnMapping) (hnc : noFieldClobber headers mapping) :
    mapCsvToTransactions headers data mapping = data.map (mapCsvRow headers mapping) ∧
    (mapCsvToTransactions headers data mapping).length = data.length ∧
    (∀ row : List String,
      (mapping.categoryColumn ≠ "" → mapping.categoryColumn ∈ headers →
        (mapCsvRow headers mapping row).category =
          cellAt row (jsIndexOf headers mapping.categoryColumn)) ∧
      ((mapping.categoryColumn = "" ∨ ¬ mapping.categoryColumn ∈ headers) →
        (mapCsvRow headers mapping row).category =
          (if mapping.defaultCategory = "" then "Uncategorized" else mapping.defaultCategory)) ∧
      (mapping.typeColumn ≠ "" → mapping.typeColumn ∈ headers →
        (mapCsvRow headers mapping row).type =
          cellAt row (jsIndexOf headers mapping.typeColumn)) ∧
      ((mapping.typeColumn = "" ∨ ¬ mapping.typeColumn ∈ headers) →
        (mapCsvRow headers mapping row).type =
          (if mapping.defaultType = "" then "expense" else mapping.defaultType)) ∧
      (headers.Nodup → ∀ p ∈ headers.enum, ¬ consumedIdx headers mapping p.1 →
        ((mapCsvRow headers mapping row).extra).lookup p.2 =
          some (cellAt row (p.1 : Int)))) := by
  refine ⟨rfl, List.length_map data _, fun row => ?_⟩
  obtain ⟨_, _, _, hcat, htype⟩ := mapCsvRow_core_fields headers mapping row hnc
  refine ⟨?_, ?_, ?_, ?_, ?_⟩
  · intro hcc hmem
    rw [hcat]
    show (if 0 ≤ categoryIdxOf headers mapping then cellAt row (categoryIdxOf headers mapping)
      else if mapping.defaultCategory = "" then "Uncategorized"
      else mapping.defaultCategory) = _
    rw [categoryIdxOf, if_neg hcc, if_pos (jsIndexOf_nonneg hmem)]
  · intro hun
    rw [hcat]
    show (if 0 ≤ categoryIdxOf headers mapping then cellAt row (categoryIdxOf headers mapping)
      else if mapping.defaultCategory = "" then "Uncategorized"
      else mapping.defaultCategory) = _
    rw [categoryIdxOf_unresolved headers mapping hun, if_neg (by decide)]
  · intro hcc hmem
    rw [htype]
    show (if 0 ≤ typeIdxOf headers mapping then cellAt row (typeIdxOf headers mapping)
      else if mapping.defaultType = "" then "expense" else mapping.defaultType) = _
    rw [typeIdxOf, if_neg hcc, if_pos (jsIndexOf_nonneg hmem)]
  · intro hun
    rw [htype]
    show (if 0 ≤ typeIdxOf headers mapping then cellAt row (typeIdxOf headers mapping)
      else if mapping.defaultType = "" then "expense" else mapping.defaultType) = _
    rw [typeIdxOf_unresolved headers mapping hun, if_neg (by decide)]
  · intro hnd p hp hcons
    have hname : ¬ p.2 ∈ interfaceFieldNames := hnc p hp hcons
    have hnd' : (headers.enum.map Prod.snd).Nodup := by
      rw [List.enum]; rw [enumFrom_map_snd]; exact hnd
    have := foldSet_extra_hit headers mapping row headers.enum
      (mapCsvRowBase headers mapping row) p.1 p.2 (by simpa using hp) hnd' hcons hname
    exact this

/-- Witness for C7 (amended): over headers with one extra column `note`
and the generic template mapping, the category falls back to the default
and the `note` value is preserved in the extra data. -/
theorem c7_row_mapper_witness :
    (mapCsvRow ["date", "description", "amount", "note"]
        (templateMapping genericTemplate ["date", "description", "amount", "note"])
        ["2024-01-05", "Coffee", "-50", "hot"]).category = "Uncategorized" ∧
    ((mapCsvRow ["date", "description", "amount", "note"]
        (templateMapping genericTemplate ["date", "description", "amount", "note"])
        ["2024-01-05", "Coffee", "-50", "hot"]).extra).lookup "note" = some "hot" := by
  have T := c7_row_mapper_amended ["date", "description", "amount", "note"]
    [["2024-01-05", "Coffee", "-50", "hot"]]
    (templateMapping genericTemplate ["date", "description", "amount", "note"]) (by decide)
  constructor
  · have h := (T.2.2 ["2024-01-05", "Coffee", "-50", "hot"]).2.1 (Or.inl (by decide))
    exact h.trans (by decide)
  · have h := (T.2.2 ["2024-01-05", "Coffee", "-50", "hot"]).2.2.2.2 (by decide)
      (3, "note") (by decide) (by decide)
    exact h.trans (by decide)

/-- Claim C10 counterexample: headers `["type", "ttype"]` with the type
column mapped to `ttype` (present at index 1, cell value "income"), one
data row `["HACK", "income"]`.  The claim as stated predicts the
candidate's type is the mapped column's raw cell "income"; the code
instead yields "HACK", because the unconsumed column literally named
`type` is assigned onto the record afterwards and overwrites the field. -/
theorem c10_type_counterexample :
    typeClobberMapping.typeColumn ≠ "" ∧ typeClobberMapping.typeColumn ∈ typeClobberHeaders ∧
    cellAt typeClobberRow (jsIndexOf typeClobberHeaders typeClobberMapping.typeColumn) =
      "income" ∧
    (mapCsvToTransactions typeClobberHeaders [typeClobberRow] typeClobberMapping).map
      (fun t => t.type) = ["HACK"] ∧
    ("HACK" : String) ≠ "income" := by decide

/-- Claim C10 (amended): when a type column is mapped and present — and
no unconsumed header is literally named after an interface field, which
would overwrite it (the counterexample) — the candidate's type is the
mapped column's raw cell value verbatim, with no restriction to the
income/expense enumeration; and at commit any type other than the exact
string "expense" receives the income treatment: the committed amount is
the (non-negative) absolute value of the parsed amount. -/
theorem c10_type_passthrough_amended :
    (∀ (headers : List String) (mapping : ColumnMapping) (row : List String),
      noFieldClobber headers mapping →
      mapping.typeColumn ≠ "" → mapping.typeColumn ∈ headers →
      (mapCsvRow headers mapping row).type =
        cellAt row (jsIndexOf headers mapping.typeColumn)) ∧
    (∀ (t : CsvTransaction) (tx : DbTransaction) (q : ℚ),
      convertTx t = .ok tx → t.type ≠ "expense" →
      jsParseFloat (stripAmount t.amount) = some q →
      tx.amount = some |q| ∧ 0 ≤ |q|) := by
  constructor
  · intro headers mapping row hnc hcc hmem
    obtain ⟨_, _, _, _, htype⟩ := mapCsvRow_core_fields headers mapping row hnc
    rw [htype]
    show (if 0 ≤ typeIdxOf headers mapping then cellAt row (typeIdxOf headers mapping)
      else if mapping.defaultType = "" then "expense" else mapping.defaultType) = _
    rw [typeIdxOf, if_neg hcc, if_pos (jsIndexOf_nonneg hmem)]
  · intro t tx q hok hne hq
    unfold convertTx at hok
    cases hdate : jsDateFromString t.date with
    | none => rw [hdate] at hok; exact absurd hok (by simp)
    | some dt =>
      rw [hdate] at hok
      injection hok with hok
      subst hok
      refine ⟨?_, abs_nonneg q⟩
      simp only [hq, Option.map_some']
      rw [if_neg hne]

/-- Witness for C10 (amended): a capitalized "Expense" type cell passes
through verbatim, and at commit it is treated as income — the amount is
the positive absolute value of the parsed "-50". -/
theorem c10_type_passthrough_witness :
    (mapCsvRow ["date", "description", "amount", "type"]
        (templateMapping genericTemplate ["date", "description", "amount", "type"])
        ["2024-01-05", "Coffee", "-50", "Expense"]).type =
      cellAt ["2024-01-05", "Coffee", "-50", "Expense"]
        (jsIndexOf ["date", "description", "amount", "type"]
          (templateMapping genericTemplate
            ["date", "description", "amount", "type"]).typeColumn) ∧
    (⟨⟨2024, 1, 5⟩, "Coffee", some 50, "Food", "Expense"⟩ : DbTransaction).amount =
      some |(-50 : ℚ)| ∧ (0 : ℚ) ≤ |(-50 : ℚ)| :=
  ⟨c10_type_passthrough_amended.1 ["date", "description", "amount", "type"]
      (templateMapping genericTemplate ["date", "description", "amount", "type"])
      ["2024-01-05", "Coffee", "-50", "Expense"] (by decide) (by decide) (by decide),
   c10_type_passthrough_amended.2 ⟨"2024-01-05", "Coffee", "-50", "Food", "Expense", []⟩
      ⟨⟨2024, 1, 5⟩, "Coffee", some 50, "Food", "Expense"⟩ (-50) rfl (by decide) (by decide)⟩
